import Mathlib

/-!
# Restraints of the floating six-DoF rigid body: `moorDynR1` and `gyroscopicMoment`

A shallow embedding of `src/moorDynR1.C` (the restraint coupling the rigid body
to the MoorDyn v1 mooring library) and of the gyroscopic restraint declared in
`gyroscopicMoment.H`.

Scalars (`Foam::scalar`, `double`) are an arbitrary type `S` carrying the
operations the code applies to them (`-`, `*`, `/`, decimal literals), so every
statement about `moorDynR1` below holds for whatever arithmetic interprets
these operations.  The library entry points `LinesInit`, `LinesCalc`,
`LinesClose` and OpenFOAM's Euler-angle extraction are parameters.
-/

set_option linter.unusedVariables false
set_option linter.unusedSectionVars false
set_option linter.deprecated false

namespace Foam

/-- OpenFOAM `vector` / `point`: three components read and written with `operator[]`. -/
abbrev vector (S : Type) := Fin 3 → S

/-- OpenFOAM `tensor`: nine components, row index first. -/
abbrev tensor (S : Type) := Fin 3 → Fin 3 → S

/-- A C array `double[6]`. -/
abbrev Array6 (S : Type) := Fin 6 → S

/-- One item written to an output stream with `operator<<`. -/
inductive Out (S : Type) where
  | str (s : String)
  | scalar (x : S)
  | vec (v : vector S)
  | endl

/-- One invocation of a MoorDyn v1 entry point, with the arguments it received;
for `LinesCalc` also the content of `Flines` when it returned. -/
inductive Call (S : Type) where
  | LinesInit (X XD : Array6 S)
  | LinesCalc (X XD : Array6 S) (t_in dt_in : S) (Flines : Array6 S)
  | LinesClose

/-- What `moorDynR1.C` uses and does not define: the Euler angles of
`quaternion(orientation).eulerAngles(quaternion::XYZ)` and the three entry
points of `MoorDynv1.h`, acting on the library's process-global session `σ`.
`X`, `XD`, `*t_in`, `*dt_in` are inputs of the library; `LinesCalc` receives
`Flines` as initialised by the caller and returns it as written. -/
structure External (S σ : Type) where
  eulerAnglesXYZ : tensor S → vector S
  LinesInit : σ → Array6 S → Array6 S → σ
  LinesCalc : σ → Array6 S → Array6 S → Array6 S → S → S → σ × Array6 S
  LinesClose : σ → σ

/-- The part of `sixDoFRigidBodyMotion` that `restrain` reads: `time().deltaTValue()`,
`time().value()` and the accessors of the same names. -/
structure sixDoFRigidBodyMotion (S : Type) where
  deltaTValue : S
  value : S
  centreOfMass : vector S
  orientation : tensor S
  v : vector S
  omega : vector S
  centreOfRotation : vector S
  report : Bool

/-- A `moorDynR1` object (`initialized_`, and what has been written through
`outputFile_` to `BodyMotion.dat` and through `outputFile_2` to
`BodyVelocity.dat`) together with the surroundings its member functions act
on: MoorDyn's session, the record of the entry points invoked so far, and what
was sent to `Info`. -/
structure moorDynR1 (S σ : Type) where
  initialized_ : Bool
  outputFile_ : List (Out S)
  outputFile_2 : List (Out S)
  session : σ
  calls : List (Call S)
  Info : List (Out S)

/-- What a call of `restrain` leaves behind: the object and the three
reference arguments. -/
structure Restrained (S σ : Type) where
  self : moorDynR1 S σ
  restraintPosition : vector S
  restraintForce : vector S
  restraintMoment : vector S

/-- Index `ii` of a six-element array, for `ii` in `0..2`. -/
def lo (ii : Fin 3) : Fin 6 := ⟨ii.val, by omega⟩

/-- Index `ii+3` of a six-element array, for `ii` in `0..2`. -/
def hi (ii : Fin 3) : Fin 6 := ⟨ii.val + 3, by omega⟩

section code

variable {S σ : Type}

/-- Body of the loop of `restrain` filling `X` and `XD` (lines 125-131):
`X[ii] = CoM[ii]; X[ii+3] = rotationAngle[ii]; XD[ii] = v[ii]; XD[ii+3] = omega[ii];`. -/
def fillStep (CoM rotationAngle v omega : vector S)
    (a : Array6 S × Array6 S) (ii : Fin 3) : Array6 S × Array6 S :=
  (Function.update (Function.update a.1 (lo ii) (CoM ii)) (hi ii) (rotationAngle ii),
   Function.update (Function.update a.2 (lo ii) (v ii)) (hi ii) (omega ii))

/-- The loop `for (int ii=0; ii<3; ii++)` of lines 125-131, run on the arrays
`X`, `XD` with the contents `a` they have when the loop is entered. -/
def fillState (CoM rotationAngle v omega : vector S)
    (a : Array6 S × Array6 S) : Array6 S × Array6 S :=
  [0, 1, 2].foldl (fillStep CoM rotationAngle v omega) a

/-- Body of the loop of lines 162-166:
`restraintForce[i]=Flines[i]; restraintMoment[i]=Flines[i+3];`. -/
def loadStep (Flines : Array6 S) (a : vector S × vector S) (i : Fin 3) :
    vector S × vector S :=
  (Function.update a.1 i (Flines (lo i)), Function.update a.2 i (Flines (hi i)))

/-- The loop `for(int i=0;i<3;i++)` of lines 162-166, run on
`(restraintForce, restraintMoment)`. -/
def loadLoop (Flines : Array6 S) (a : vector S × vector S) : vector S × vector S :=
  [0, 1, 2].foldl (loadStep Flines) a

variable [Sub S] [Mul S] [Div S] [OfScientific S]

/-- The line `restrain` sends to `*outputFile_` (lines 178-180). The `int`
literal `180` is converted to `double` before the division. -/
def motionLine (t : S) (CoM rotationAngle : vector S) : List (Out S) :=
  [.scalar t, .str " ", .scalar (CoM 0), .str " ", .scalar (CoM 1), .str " ",
   .scalar (CoM 2), .str " ",
   .scalar (180.0 / 3.1415926535 * rotationAngle 0), .str " ",
   .scalar (180.0 / 3.1415926535 * rotationAngle 1), .str " ",
   .scalar (180.0 / 3.1415926535 * rotationAngle 2),
   .str " ", .endl]

/-- The line `restrain` sends to `*outputFile_2` (lines 181-183). -/
def velocityLine (t : S) (v omega : vector S) : List (Out S) :=
  [.scalar t, .str " ", .scalar (v 0), .str " ", .scalar (v 1), .str " ",
   .scalar (v 2), .str " ",
   .scalar (omega 0), .str " ", .scalar (omega 1), .str " ", .scalar (omega 2),
   .str " ", .endl]

/-- The constructor `moorDynR1::moorDynR1` (lines 69-85), with MoorDyn's
session as found: `read` changes nothing of the object, `initialized_` is
cleared, the message goes to `Info`, and both files are opened anew, empty. -/
def moorDynR1.construct (session : σ) : moorDynR1 S σ :=
  { initialized_ := false
    outputFile_ := []
    outputFile_2 := []
    session := session
    calls := []
    Info := [.str "Create moorDynR1 using MoorDyn v1.", .endl] }

/-- The destructor `moorDynR1::~moorDynR1` (lines 90-97). -/
def moorDynR1.destroy (ext : External S σ) (self : moorDynR1 S σ) : moorDynR1 S σ :=
  if self.initialized_ then
    { self with
      session := ext.LinesClose self.session
      calls := self.calls ++ [Call.LinesClose] }
  else self

/-- The member function `moorDynR1::restrain` (lines 103-185). The three last arguments
are the values the reference arguments hold on entry. The local arrays `X`,
`XD` are declared without initialiser; the loop assigns every entry of both
(`fillState_eq`), and they enter it here holding `0.0`. -/
def moorDynR1.restrain (ext : External S σ) (self : moorDynR1 S σ)
    (motion : sixDoFRigidBodyMotion S)
    (restraintPosition restraintForce restraintMoment : vector S) : Restrained S σ :=
  let deltaT := motion.deltaTValue
  let t := motion.value
  let tprev := t - deltaT
  let CoM := motion.centreOfMass
  let rotationAngle := ext.eulerAnglesXYZ motion.orientation
  let v := motion.v
  let omega := motion.omega
  let filled := fillState CoM rotationAngle v omega (fun _ => 0.0, fun _ => 0.0)
  let X := filled.1
  let XD := filled.2
  let s1 : moorDynR1 S σ :=
    if !self.initialized_ then
      { self with
        session := ext.LinesInit self.session X XD
        calls := self.calls ++ [Call.LinesInit X XD]
        Info := self.Info ++ [.str "MoorDyn module initialized!", .endl]
        initialized_ := true }
    else self
  let Flines0 : Array6 S := fun _ => 0.0
  let s2 : moorDynR1 S σ :=
    { s1 with
      Info := s1.Info ++
        [.str "X[6]: ", .vec ![X 0, X 1, X 2], .str ", ", .vec ![X 3, X 4, X 5], .endl] ++
        [.str "XD[6]: ", .vec ![XD 0, XD 1, XD 2], .str ", ", .vec ![XD 3, XD 4, XD 5],
         .endl] }
  let answer := ext.LinesCalc s2.session X XD Flines0 tprev deltaT
  let Flines := answer.2
  let s3 : moorDynR1 S σ :=
    { s2 with
      session := answer.1
      calls := s2.calls ++ [Call.LinesCalc X XD tprev deltaT Flines] }
  let loaded := loadLoop Flines (restraintForce, restraintMoment)
  let restraintForce := loaded.1
  let restraintMoment := loaded.2
  let restraintPosition := motion.centreOfRotation
  let s4 : moorDynR1 S σ :=
    if motion.report then
      { s3 with
        Info := s3.Info ++
          [.scalar t, .str ": force ", .vec restraintForce, .str ", moment ",
           .vec restraintMoment, .endl] }
    else s3
  let s5 : moorDynR1 S σ :=
    { s4 with outputFile_ := s4.outputFile_ ++ motionLine t CoM rotationAngle }
  let s6 : moorDynR1 S σ :=
    { s5 with outputFile_2 := s5.outputFile_2 ++ velocityLine t v omega }
  { self := s6
    restraintPosition := restraintPosition
    restraintForce := restraintForce
    restraintMoment := restraintMoment }

/-- One call of `restrain` as the solver makes it: the body state and the
values the three reference arguments hold on entry. -/
structure Invocation (S : Type) where
  motion : sixDoFRigidBodyMotion S
  restraintPosition : vector S
  restraintForce : vector S
  restraintMoment : vector S

/-- The object after one call of `restrain`. -/
def moorDynR1.step (ext : External S σ) (self : moorDynR1 S σ) (i : Invocation S) :
    moorDynR1 S σ :=
  (self.restrain ext i.motion i.restraintPosition i.restraintForce i.restraintMoment).self

/-- The object after consecutive calls of `restrain`, in the order of the list. -/
def moorDynR1.restrainAll (ext : External S σ) (self : moorDynR1 S σ)
    (is : List (Invocation S)) : moorDynR1 S σ :=
  is.foldl (moorDynR1.step ext) self

/-- The entry points invoked by one call of `restrain` made on `self`: what
the call adds to the record. -/
def moorDynR1.invoked (ext : External S σ) (self : moorDynR1 S σ) (i : Invocation S) :
    List (Call S) :=
  (self.step ext i).calls.drop self.calls.length

/-- The state vector `X` the claims describe: centre of mass, then the XYZ Euler angles. -/
def stateX (ext : External S σ) (motion : sixDoFRigidBodyMotion S) : Array6 S :=
  ![motion.centreOfMass 0, motion.centreOfMass 1, motion.centreOfMass 2,
    ext.eulerAnglesXYZ motion.orientation 0, ext.eulerAnglesXYZ motion.orientation 1,
    ext.eulerAnglesXYZ motion.orientation 2]

/-- The state vector `XD` the claims describe: linear, then angular velocity. -/
def stateXD (motion : sixDoFRigidBodyMotion S) : Array6 S :=
  ![motion.v 0, motion.v 1, motion.v 2, motion.omega 0, motion.omega 1, motion.omega 2]

/-- The content of `Flines` when `LinesCalc` returns in a call of `restrain`
made on `self`. -/
def moorDynR1.loads (ext : External S σ) (self : moorDynR1 S σ)
    (motion : sixDoFRigidBodyMotion S) : Array6 S :=
  (ext.LinesCalc
    (if self.initialized_ then self.session
     else ext.LinesInit self.session (stateX ext motion) (stateXD motion))
    (stateX ext motion) (stateXD motion) (fun _ => 0.0)
    (motion.value - motion.deltaTValue) motion.deltaTValue).2

end code

/-- Whether a recorded invocation is one of `LinesInit`. -/
def Call.isInit {S : Type} : Call S → Bool
  | .LinesInit _ _ => true
  | _ => false

/-- Whether a recorded invocation is one of `LinesCalc`. -/
def Call.isCalc {S : Type} : Call S → Bool
  | .LinesCalc _ _ _ _ _ => true
  | _ => false

/-- Whether a recorded invocation is one of `LinesClose`. -/
def Call.isClose {S : Type} : Call S → Bool
  | .LinesClose => true
  | _ => false

/-- Whether an item is the end of a line. -/
def Out.isEndl {S : Type} : Out S → Bool
  | .endl => true
  | _ => false

/-- Whether an item is the one-blank string that separates the columns. -/
def Out.isBlank {S : Type} : Out S → Bool
  | .str s => s == " "
  | _ => false

/-- The lines of a text after the items `cur` of a line already begun: a line
is what precedes an `endl`; items after the last `endl` form no line. -/
def linesAux {S : Type} : List (Out S) → List (Out S) → List (List (Out S))
  | _, [] => []
  | cur, o :: rest =>
    if o.isEndl then cur :: linesAux [] rest else linesAux (cur ++ [o]) rest

/-- The lines of a file, each without its `endl`. -/
def lines {S : Type} (file : List (Out S)) : List (List (Out S)) :=
  linesAux [] file

/-- The columns of a line after the items `cur` of a column already begun: the
non-empty runs of items between blanks. -/
def columnsAux {S : Type} : List (Out S) → List (Out S) → List (List (Out S))
  | cur, [] => if cur.isEmpty then [] else [cur]
  | cur, o :: rest =>
    if o.isBlank then
      (if cur.isEmpty then columnsAux [] rest else cur :: columnsAux [] rest)
    else columnsAux (cur ++ [o]) rest

/-- The blank-separated columns of a line. -/
def columns {S : Type} (line : List (Out S)) : List (List (Out S)) :=
  columnsAux [] line

/-- The number a line starts with, when its first column is one number. -/
def timeOf {S : Type} (line : List (Out S)) : Option S :=
  match (columns line).head? with
  | some [.scalar x] => some x
  | _ => none

/-- The time column of a file: for each line, top to bottom, the number its
first column holds, or `none` for a line that does not start with one number.
No line is left out, so the column is as long as the file has lines. -/
def timeColumn {S : Type} (file : List (Out S)) : List (Option S) :=
  (lines file).map timeOf

/-- Two consecutive entries of a time column are in order: both are numbers and
the upper one is at most the lower one. A line without a time is in order with
none. -/
def timeLe {S : Type} [LE S] : Option S → Option S → Prop
  | some a, some b => a ≤ b
  | _, _ => False

/-! ## The gyroscopic restraint -/

section gyroscopic

variable {S : Type} [Ring S]

/-- The private data of class `gyroscopicMoment` (`gyroscopicMoment.H`, lines 94-104). -/
structure gyroscopicMoment (S : Type) where
  axis_ : vector S
  speed_ : S
  omega_ : vector S
  inertia_ : tensor S

/-- What `restrain` gives back through its three reference arguments. -/
structure Restraint (S : Type) where
  restraintPosition : vector S
  restraintForce : vector S
  restraintMoment : vector S

/-- The vector cross product `a ^ b` of OpenFOAM. -/
def cross (a b : vector S) : vector S :=
  ![a 1 * b 2 - a 2 * b 1, a 2 * b 0 - a 0 * b 2, a 0 * b 1 - a 1 * b 0]

/-- The inner product `T & v` of a tensor and a vector. -/
def tensor.dot (T : tensor S) (v : vector S) : vector S :=
  fun i => T i 0 * v 0 + T i 1 * v 1 + T i 2 * v 2

/-- The transpose `T.T()`. -/
def tensor.T (T : tensor S) : tensor S := fun i j => T j i

/-- Modelled from the spec: `gyroscopicMoment::read` of `gyroscopicMoment.C`,
which is not among the sources. The spec has the configuration hold
`rotationAxis`, `angularSpeed` and `inertiaMoment`, and the rotor's angular
velocity be `ω_rotor = axis0 * speed`, the axis taken as given, not normalised. -/
def gyroscopicMoment.read (rotationAxis : vector S) (angularSpeed : S)
    (inertiaMoment : tensor S) : gyroscopicMoment S :=
  { axis_ := rotationAxis
    speed_ := angularSpeed
    omega_ := fun k => rotationAxis k * angularSpeed
    inertia_ := inertiaMoment }

/-- Modelled from the spec: `gyroscopicMoment::restrain` of `gyroscopicMoment.C`,
which is not among the sources. The spec has the application point be the
body's centre of rotation, no force component, and the moment be
`M = (I0 · ω_rotor) × Ω_body` with `Ω_body` the body's angular velocity taken
into the frame of `ω_rotor` and `I0` (the body frame, through the transposed
orientation); the header has the results be global-frame vectors, so the
orientation carries `M` back. -/
def gyroscopicMoment.restrain (self : gyroscopicMoment S)
    (motion : sixDoFRigidBodyMotion S)
    (restraintPosition restraintForce restraintMoment : vector S) : Restraint S :=
  let Q := motion.orientation
  let omegaBody := Q.T.dot motion.omega
  let M := cross (self.inertia_.dot self.omega_) omegaBody
  { restraintPosition := motion.centreOfRotation
    restraintForce := fun _ => 0
    restraintMoment := Q.dot M }

end gyroscopic

/-! ## Inputs on which the statements are exercised -/

/-- A stand-in for what `moorDynR1.C` takes from outside: the Euler angles
are `angles` whatever the orientation, MoorDyn's session counts the entry
points that ran, and `LinesCalc` writes `F` into `Flines`. -/
def demoExternal (S : Type) (angles : vector S) (F : Array6 S) : External S ℕ :=
  { eulerAnglesXYZ := fun _ => angles
    LinesInit := fun n _ _ => n + 1
    LinesCalc := fun n _ _ _ _ _ => (n + 1, F)
    LinesClose := fun n => n + 1 }

/-- A body state at time `t` with step `0.5`. -/
def demoMotion (S : Type) [OfScientific S] (t : S) (report : Bool) :
    sixDoFRigidBodyMotion S :=
  { deltaTValue := 0.5
    value := t
    centreOfMass := ![1.0, 2.0, 3.0]
    orientation := fun i j => if i = j then 1.0 else 0.0
    v := ![4.0, 5.0, 6.0]
    omega := ![7.0, 8.0, 9.0]
    centreOfRotation := ![10.0, 11.0, 12.0]
    report := report }

/-- A call of `restrain` at time `t`, the reference arguments holding `0.0`. -/
def demoInvocation (S : Type) [OfScientific S] (t : S) : Invocation S :=
  { motion := demoMotion S t true
    restraintPosition := fun _ => 0.0
    restraintForce := fun _ => 0.0
    restraintMoment := fun _ => 0.0 }

/-! ## The two loops -/

section lemmas

variable {S σ : Type}

theorem fillState_eq (CoM rotationAngle v omega : vector S) (a : Array6 S × Array6 S) :
    fillState CoM rotationAngle v omega a =
      (![CoM 0, CoM 1, CoM 2, rotationAngle 0, rotationAngle 1, rotationAngle 2],
       ![v 0, v 1, v 2, omega 0, omega 1, omega 2]) := by
  refine Prod.ext ?_ ?_ <;> funext i <;> fin_cases i <;> rfl

theorem loadLoop_eq (Flines : Array6 S) (a : vector S × vector S) :
    loadLoop Flines a =
      (![Flines 0, Flines 1, Flines 2], ![Flines 3, Flines 4, Flines 5]) := by
  refine Prod.ext ?_ ?_ <;> funext i <;> fin_cases i <;> rfl

/-! ## Lines of a file -/

theorem linesAux_row (row : List (Out S)) (hrow : ∀ o ∈ row, o.isEndl = false)
    (cur rest : List (Out S)) :
    linesAux cur (row ++ Out.endl :: rest) = (cur ++ row) :: linesAux [] rest := by
  induction row generalizing cur with
  | nil => simp [linesAux, Out.isEndl]
  | cons o row ih =>
    have ho : o.isEndl = false := hrow o (List.mem_cons_self _ _)
    have hr : ∀ x ∈ row, x.isEndl = false := fun x hx => hrow x (List.mem_cons_of_mem _ hx)
    simp [linesAux, ho, ih hr]

theorem lines_flatten (rows : List (List (Out S)))
    (hrows : ∀ row ∈ rows, ∀ o ∈ row, o.isEndl = false) :
    lines ((rows.map (fun row => row ++ [Out.endl])).flatten) = rows := by
  induction rows with
  | nil => simp [lines, linesAux]
  | cons row rows ih =>
    have h1 : ∀ o ∈ row, o.isEndl = false := hrows row (List.mem_cons_self _ _)
    have h2 : ∀ r ∈ rows, ∀ o ∈ r, o.isEndl = false :=
      fun r hr => hrows r (List.mem_cons_of_mem _ hr)
    have := linesAux_row row h1 [] ((rows.map (fun row => row ++ [Out.endl])).flatten)
    simp only [lines] at ih ⊢
    simp [this, ih h2]

/-! ## What one call of `restrain` does -/

theorem destroy_calls (ext : External S σ) (self : moorDynR1 S σ) :
    (self.destroy ext).calls =
      self.calls ++ (if self.initialized_ then [Call.LinesClose] else []) := by
  cases h : self.initialized_ <;> simp [moorDynR1.destroy, h]

section restrain

variable [Sub S] [Mul S] [Div S] [OfScientific S]

theorem restrain_initialized_ (ext : External S σ) (self : moorDynR1 S σ)
    (motion : sixDoFRigidBodyMotion S) (p f m : vector S) :
    (self.restrain ext motion p f m).self.initialized_ = true := by
  cases h : self.initialized_ <;> simp [moorDynR1.restrain, h] <;> split <;> simp [h]

theorem restrain_calls (ext : External S σ) (self : moorDynR1 S σ)
    (motion : sixDoFRigidBodyMotion S) (p f m : vector S) :
    (self.restrain ext motion p f m).self.calls =
      self.calls ++
        ((if self.initialized_ then []
          else [Call.LinesInit (stateX ext motion) (stateXD motion)]) ++
         [Call.LinesCalc (stateX ext motion) (stateXD motion)
            (motion.value - motion.deltaTValue) motion.deltaTValue
            (self.loads ext motion)]) := by
  cases h : self.initialized_ <;>
    simp [moorDynR1.restrain, moorDynR1.loads, h, fillState_eq, stateX, stateXD] <;>
    split <;> simp [h]

theorem restrain_outputFile_ (ext : External S σ) (self : moorDynR1 S σ)
    (motion : sixDoFRigidBodyMotion S) (p f m : vector S) :
    (self.restrain ext motion p f m).self.outputFile_ =
      self.outputFile_ ++
        motionLine motion.value motion.centreOfMass (ext.eulerAnglesXYZ motion.orientation) := by
  cases h : self.initialized_ <;> simp [moorDynR1.restrain, h] <;> split <;> simp [h]

theorem restrain_outputFile_2 (ext : External S σ) (self : moorDynR1 S σ)
    (motion : sixDoFRigidBodyMotion S) (p f m : vector S) :
    (self.restrain ext motion p f m).self.outputFile_2 =
      self.outputFile_2 ++ velocityLine motion.value motion.v motion.omega := by
  cases h : self.initialized_ <;> simp [moorDynR1.restrain, h] <;> split <;> simp [h]

theorem restrain_loads (ext : External S σ) (self : moorDynR1 S σ)
    (motion : sixDoFRigidBodyMotion S) (p f m : vector S) :
    (self.restrain ext motion p f m).restraintForce =
        ![self.loads ext motion 0, self.loads ext motion 1, self.loads ext motion 2] ∧
      (self.restrain ext motion p f m).restraintMoment =
        ![self.loads ext motion 3, self.loads ext motion 4, self.loads ext motion 5] ∧
      (self.restrain ext motion p f m).restraintPosition = motion.centreOfRotation := by
  cases h : self.initialized_ <;>
    simp [moorDynR1.restrain, moorDynR1.loads, h, fillState_eq, loadLoop_eq, stateX, stateXD]

theorem restrain_Info_report (ext : External S σ) (self : moorDynR1 S σ)
    (motion : sixDoFRigidBodyMotion S) (p f m : vector S) :
    (self.restrain ext { motion with report := true } p f m).self.Info =
      (self.restrain ext { motion with report := false } p f m).self.Info ++
        [.scalar motion.value, .str ": force ",
         .vec (self.restrain ext { motion with report := true } p f m).restraintForce,
         .str ", moment ",
         .vec (self.restrain ext { motion with report := true } p f m).restraintMoment,
         .endl] := by
  cases h : self.initialized_ <;> simp [moorDynR1.restrain, h]

theorem invoked_eq (ext : External S σ) (self : moorDynR1 S σ) (i : Invocation S) :
    self.invoked ext i =
      (if self.initialized_ then []
       else [Call.LinesInit (stateX ext i.motion) (stateXD i.motion)]) ++
      [Call.LinesCalc (stateX ext i.motion) (stateXD i.motion)
         (i.motion.value - i.motion.deltaTValue) i.motion.deltaTValue
         (self.loads ext i.motion)] := by
  simp [moorDynR1.invoked, moorDynR1.step, restrain_calls]

theorem step_initialized_ (ext : External S σ) (self : moorDynR1 S σ) (i : Invocation S) :
    (self.step ext i).initialized_ = true := by
  simp [moorDynR1.step, restrain_initialized_]

theorem step_calls (ext : External S σ) (self : moorDynR1 S σ) (i : Invocation S) :
    (self.step ext i).calls = self.calls ++ self.invoked ext i := by
  simp [invoked_eq, moorDynR1.step, restrain_calls]

/-! ## Consecutive calls -/

theorem restrainAll_cons (ext : External S σ) (self : moorDynR1 S σ) (i : Invocation S)
    (is : List (Invocation S)) :
    self.restrainAll ext (i :: is) = (self.step ext i).restrainAll ext is := by
  simp [moorDynR1.restrainAll]

theorem restrainAll_snoc (ext : External S σ) (self : moorDynR1 S σ) (i : Invocation S)
    (is : List (Invocation S)) :
    self.restrainAll ext (is ++ [i]) = (self.restrainAll ext is).step ext i := by
  simp [moorDynR1.restrainAll]

theorem restrainAll_initialized_ (ext : External S σ) (self : moorDynR1 S σ)
    (is : List (Invocation S)) :
    (self.restrainAll ext is).initialized_ = (self.initialized_ || !is.isEmpty) := by
  induction is generalizing self with
  | nil => simp [moorDynR1.restrainAll]
  | cons i is ih => simp [restrainAll_cons, ih, step_initialized_]

theorem countP_isInit_invoked (ext : External S σ) (self : moorDynR1 S σ) (i : Invocation S) :
    (self.invoked ext i).countP Call.isInit = if self.initialized_ then 0 else 1 := by
  cases h : self.initialized_ <;> simp [invoked_eq, h, Call.isInit, List.countP_cons]

theorem countP_isClose_invoked (ext : External S σ) (self : moorDynR1 S σ) (i : Invocation S) :
    (self.invoked ext i).countP Call.isClose = 0 := by
  cases h : self.initialized_ <;> simp [invoked_eq, h, Call.isClose, List.countP_cons]

theorem restrainAll_countP_isInit (ext : External S σ) (self : moorDynR1 S σ)
    (is : List (Invocation S)) :
    (self.restrainAll ext is).calls.countP Call.isInit =
      self.calls.countP Call.isInit + if (self.initialized_ || is.isEmpty) then 0 else 1 := by
  induction is generalizing self with
  | nil => simp [moorDynR1.restrainAll]
  | cons i is ih =>
    rw [restrainAll_cons, ih, step_calls, List.countP_append, countP_isInit_invoked,
      step_initialized_]
    cases self.initialized_ <;> simp

theorem restrainAll_countP_isClose (ext : External S σ) (self : moorDynR1 S σ)
    (is : List (Invocation S)) :
    (self.restrainAll ext is).calls.countP Call.isClose = self.calls.countP Call.isClose := by
  induction is generalizing self with
  | nil => simp [moorDynR1.restrainAll]
  | cons i is ih =>
    rw [restrainAll_cons, ih, step_calls, List.countP_append, countP_isClose_invoked]
    simp

theorem restrainAll_outputFile_ (ext : External S σ) (self : moorDynR1 S σ)
    (is : List (Invocation S)) :
    (self.restrainAll ext is).outputFile_ =
      self.outputFile_ ++
        ((is.map (fun i => (motionLine i.motion.value i.motion.centreOfMass
          (ext.eulerAnglesXYZ i.motion.orientation)).dropLast)).map
            (fun row => row ++ [Out.endl])).flatten := by
  induction is generalizing self with
  | nil => simp [moorDynR1.restrainAll]
  | cons i is ih =>
    rw [restrainAll_cons, ih]
    simp [moorDynR1.step, restrain_outputFile_, motionLine]

theorem restrainAll_outputFile_2 (ext : External S σ) (self : moorDynR1 S σ)
    (is : List (Invocation S)) :
    (self.restrainAll ext is).outputFile_2 =
      self.outputFile_2 ++
        ((is.map (fun i => (velocityLine i.motion.value i.motion.v
          i.motion.omega).dropLast)).map (fun row => row ++ [Out.endl])).flatten := by
  induction is generalizing self with
  | nil => simp [moorDynR1.restrainAll]
  | cons i is ih =>
    rw [restrainAll_cons, ih]
    simp [moorDynR1.step, restrain_outputFile_2, velocityLine]

theorem motionLine_columns (t : S) (CoM rotationAngle : vector S) :
    columns (motionLine t CoM rotationAngle).dropLast =
      [[.scalar t], [.scalar (CoM 0)], [.scalar (CoM 1)], [.scalar (CoM 2)],
       [.scalar (180.0 / 3.1415926535 * rotationAngle 0)],
       [.scalar (180.0 / 3.1415926535 * rotationAngle 1)],
       [.scalar (180.0 / 3.1415926535 * rotationAngle 2)]] := by
  simp [columns, columnsAux, motionLine, Out.isBlank]

theorem velocityLine_columns (t : S) (v omega : vector S) :
    columns (velocityLine t v omega).dropLast =
      [[.scalar t], [.scalar (v 0)], [.scalar (v 1)], [.scalar (v 2)],
       [.scalar (omega 0)], [.scalar (omega 1)], [.scalar (omega 2)]] := by
  simp [columns, columnsAux, velocityLine, Out.isBlank]

theorem motionLine_no_endl (t : S) (CoM rotationAngle : vector S) :
    ∀ o ∈ (motionLine t CoM rotationAngle).dropLast, o.isEndl = false := by
  simp [motionLine, Out.isEndl]

theorem velocityLine_no_endl (t : S) (v omega : vector S) :
    ∀ o ∈ (velocityLine t v omega).dropLast, o.isEndl = false := by
  simp [velocityLine, Out.isEndl]

theorem lines_fresh_outputFile_ (ext : External S σ) (session : σ)
    (is : List (Invocation S)) :
    lines ((moorDynR1.construct session : moorDynR1 S σ).restrainAll ext is).outputFile_ =
      is.map (fun i => (motionLine i.motion.value i.motion.centreOfMass
        (ext.eulerAnglesXYZ i.motion.orientation)).dropLast) := by
  rw [restrainAll_outputFile_]
  simp only [moorDynR1.construct, List.nil_append]
  apply lines_flatten
  intro row hrow
  obtain ⟨i, -, rfl⟩ := List.mem_map.1 hrow
  exact motionLine_no_endl _ _ _

theorem lines_fresh_outputFile_2 (ext : External S σ) (session : σ)
    (is : List (Invocation S)) :
    lines ((moorDynR1.construct session : moorDynR1 S σ).restrainAll ext is).outputFile_2 =
      is.map (fun i => (velocityLine i.motion.value i.motion.v i.motion.omega).dropLast) := by
  rw [restrainAll_outputFile_2]
  simp only [moorDynR1.construct, List.nil_append]
  apply lines_flatten
  intro row hrow
  obtain ⟨i, -, rfl⟩ := List.mem_map.1 hrow
  exact velocityLine_no_endl _ _ _

theorem timeColumn_fresh_outputFile_ (ext : External S σ) (session : σ)
    (is : List (Invocation S)) :
    timeColumn ((moorDynR1.construct session : moorDynR1 S σ).restrainAll ext is).outputFile_ =
      is.map (fun i => some i.motion.value) := by
  rw [timeColumn, lines_fresh_outputFile_, List.map_map]
  induction is with
  | nil => rfl
  | cons i is ih => simp [timeOf, motionLine_columns, ih]

theorem timeColumn_fresh_outputFile_2 (ext : External S σ) (session : σ)
    (is : List (Invocation S)) :
    timeColumn ((moorDynR1.construct session : moorDynR1 S σ).restrainAll ext is).outputFile_2 =
      is.map (fun i => some i.motion.value) := by
  rw [timeColumn, lines_fresh_outputFile_2, List.map_map]
  induction is with
  | nil => rfl
  | cons i is ih => simp [timeOf, velocityLine_columns, ih]

theorem chain_timeLe_map_some [LE S] (ts : List S)
    (h : List.Chain' (fun a b : S => a ≤ b) ts) :
    List.Chain' timeLe (ts.map some) := by
  rw [List.chain'_map]
  exact h

theorem lifetime_calls_shape (ext : External S σ) (session : σ) (is : List (Invocation S)) :
    ((moorDynR1.construct session : moorDynR1 S σ).restrainAll ext is).calls = [] ∧
        is = [] ∨
      ∃ X XD rest,
        ((moorDynR1.construct session : moorDynR1 S σ).restrainAll ext is).calls =
          Call.LinesInit X XD :: rest ∧
        (∀ c ∈ rest, c.isCalc = true) ∧ is ≠ [] := by
  induction is using List.reverseRecOn with
  | nil => left; simp [moorDynR1.restrainAll, moorDynR1.construct]
  | append_singleton is i ih =>
    right
    rw [restrainAll_snoc, step_calls, invoked_eq, restrainAll_initialized_]
    rcases ih with ⟨h, his⟩ | ⟨X, XD, rest, h, hrest, hne⟩
    · subst his
      rw [h]
      simp only [moorDynR1.construct, List.isEmpty_nil, Bool.not_true, Bool.or_self,
        Bool.false_eq_true, if_false, List.nil_append, List.singleton_append]
      exact ⟨_, _, _, rfl, by simp [Call.isCalc], by simp⟩
    · have hemp : is.isEmpty = false := by cases is <;> simp_all
      rw [h]
      simp only [moorDynR1.construct, hemp, Bool.not_false, Bool.or_true, if_true,
        List.nil_append, List.cons_append]
      refine ⟨_, _, _, rfl, ?_, by simp⟩
      intro c hc
      rcases List.mem_append.1 hc with hc | hc
      · exact hrest c hc
      · simp at hc; subst hc; rfl

end restrain

end lemmas

/-! ## The factor of the motion file -/

/-- Over the real numbers the factor `180/3.1415926535` of the motion file
exceeds `180/π`, by less than `2e-9`. -/
theorem degrees_factor_close :
    0 < (180.0 / 3.1415926535 : ℝ) - 180 / Real.pi ∧
      (180.0 / 3.1415926535 : ℝ) - 180 / Real.pi < 0.000000002 := by
  have h1 := Real.pi_gt_d20
  have h2 := Real.pi_lt_d20
  have hpos : (0 : ℝ) < Real.pi := Real.pi_pos
  constructor
  · rw [sub_pos, div_lt_div_iff hpos (by norm_num)]
    norm_num at h1 ⊢
    linarith
  · rw [sub_lt_iff_lt_add, div_lt_iff (by norm_num), add_mul, div_mul_eq_mul_div,
      add_div' _ _ _ hpos.ne', lt_div_iff hpos]
    norm_num at h1 h2 ⊢
    nlinarith

/-! ## The claims -/

section claims

variable {S σ : Type} [Sub S] [Mul S] [Div S] [OfScientific S]

/-- C1: whatever load vector `Flines` the library's `LinesCalc` has written in a
call of `restrain`, and whatever the three reference arguments held on entry,
the call returns `restraintForce = (Flines[0], Flines[1], Flines[2])`,
`restraintMoment = (Flines[3], Flines[4], Flines[5])` and `restraintPosition`
equal to the body's centre of rotation. -/
theorem restrain_load_remapping (ext : External S σ) (self : moorDynR1 S σ)
    (motion : sixDoFRigidBodyMotion S) (p f m : vector S)
    (X XD : Array6 S) (t dt : S) (Flines : Array6 S)
    (hcalc : (self.restrain ext motion p f m).self.calls.getLast? =
      some (Call.LinesCalc X XD t dt Flines)) :
    (self.restrain ext motion p f m).restraintForce = ![Flines 0, Flines 1, Flines 2] ∧
      (self.restrain ext motion p f m).restraintMoment = ![Flines 3, Flines 4, Flines 5] ∧
      (self.restrain ext motion p f m).restraintPosition = motion.centreOfRotation := by
  rw [restrain_calls, ← List.append_assoc] at hcalc
  simp at hcalc
  obtain ⟨-, -, -, -, hF⟩ := hcalc
  rw [← hF]
  exact restrain_loads ext self motion p f m

/-- C1, on a fresh object whose library writes `[1,2,3,4,5,6]`. -/
theorem restrain_load_remapping_witness :
    ((moorDynR1.construct 0 : moorDynR1 ℚ ℕ).restrain
        (demoExternal ℚ ![0.5, 0, 0] ![1, 2, 3, 4, 5, 6]) (demoMotion ℚ 2 false)
        ![7, 7, 7] ![8, 8, 8] ![9, 9, 9]).restraintForce = ![1, 2, 3] ∧
      ((moorDynR1.construct 0 : moorDynR1 ℚ ℕ).restrain
        (demoExternal ℚ ![0.5, 0, 0] ![1, 2, 3, 4, 5, 6]) (demoMotion ℚ 2 false)
        ![7, 7, 7] ![8, 8, 8] ![9, 9, 9]).restraintMoment = ![4, 5, 6] ∧
      ((moorDynR1.construct 0 : moorDynR1 ℚ ℕ).restrain
        (demoExternal ℚ ![0.5, 0, 0] ![1, 2, 3, 4, 5, 6]) (demoMotion ℚ 2 false)
        ![7, 7, 7] ![8, 8, 8] ![9, 9, 9]).restraintPosition = ![10.0, 11.0, 12.0] :=
  restrain_load_remapping (demoExternal ℚ ![0.5, 0, 0] ![1, 2, 3, 4, 5, 6])
    (moorDynR1.construct 0) (demoMotion ℚ 2 false) ![7, 7, 7] ![8, 8, 8] ![9, 9, 9]
    (stateX (demoExternal ℚ ![0.5, 0, 0] ![1, 2, 3, 4, 5, 6]) (demoMotion ℚ 2 false))
    (stateXD (demoMotion ℚ 2 false)) (2 - 0.5) 0.5 ![1, 2, 3, 4, 5, 6]
    (by rw [restrain_calls]; rfl)

/-- C2: over `N >= 1` consecutive calls of `restrain` on a freshly constructed
object (`i` the first call, `is` the later ones), `LinesInit` is invoked
exactly once in all, that invocation is made by the first call, and a call
made after these `N` (so any of the calls 2..N of a longer run) does not
invoke it. -/
theorem restrain_single_init (ext : External S σ) (session : σ) (i : Invocation S)
    (is : List (Invocation S)) :
    ((moorDynR1.construct session : moorDynR1 S σ).restrainAll ext (i :: is)).calls.countP
        Call.isInit = 1 ∧
      ((moorDynR1.construct session : moorDynR1 S σ).invoked ext i).countP Call.isInit = 1 ∧
      ∀ j : Invocation S,
        (((moorDynR1.construct session : moorDynR1 S σ).restrainAll ext (i :: is)).invoked
          ext j).countP Call.isInit = 0 := by
  refine ⟨?_, ?_, ?_⟩
  · rw [restrainAll_countP_isInit]; simp [moorDynR1.construct]
  · rw [countP_isInit_invoked]; simp [moorDynR1.construct]
  · intro j
    rw [countP_isInit_invoked, restrainAll_initialized_]; simp

/-- C3: the destructor invokes `LinesClose` exactly when `initialized_` is set,
and then once. An object on which `restrain` was never called is destroyed
with no `LinesClose` in the record of its lifetime (nor any other entry
point), one on which `restrain` was called once or more with exactly one. -/
theorem destroy_closes_iff_initialized (ext : External S σ) (session : σ)
    (self : moorDynR1 S σ) (i : Invocation S) (is : List (Invocation S)) :
    (self.destroy ext).calls =
        self.calls ++ (if self.initialized_ then [Call.LinesClose] else []) ∧
      ((moorDynR1.construct session : moorDynR1 S σ).destroy ext).calls = [] ∧
      (((moorDynR1.construct session : moorDynR1 S σ).restrainAll ext (i :: is)).destroy
        ext).calls.countP Call.isClose = 1 := by
  refine ⟨?_, ?_, ?_⟩
  · exact destroy_calls ext self
  · simp [moorDynR1.destroy, moorDynR1.construct]
  · have hinit := restrainAll_initialized_ ext (moorDynR1.construct session) (i :: is)
    have hclose := restrainAll_countP_isClose ext (moorDynR1.construct session) (i :: is)
    simp only [List.isEmpty_cons, Bool.not_false, Bool.or_true] at hinit
    rw [destroy_calls, hinit, List.countP_append, hclose]
    simp [moorDynR1.construct, Call.isClose, List.countP_cons]

/-- C4: every call of `restrain`, on an object in any state (so the first call
as the later ones), invokes `LinesCalc` exactly once, with the time argument
`t - deltaT` and the step argument `deltaT`. -/
theorem restrain_calc_once_at_tprev (ext : External S σ) (self : moorDynR1 S σ)
    (i : Invocation S) :
    ∃ X XD Flines,
      (self.invoked ext i).filter Call.isCalc =
        [Call.LinesCalc X XD (i.motion.value - i.motion.deltaTValue)
          i.motion.deltaTValue Flines] := by
  refine ⟨stateX ext i.motion, stateXD i.motion, self.loads ext i.motion, ?_⟩
  rw [invoked_eq]
  cases h : self.initialized_ <;> simp [Call.isCalc, List.filter_cons]

/-- C5: the arrays handed to the library are `X = [CoM, Euler angles XYZ]` and
`XD = [v, omega]` of the current body state: the first call (`initialized_`
clear) passes them to `LinesInit` and then to `LinesCalc`, a later call to
`LinesCalc` alone. -/
theorem restrain_state_vectors (ext : External S σ) (self : moorDynR1 S σ)
    (i : Invocation S) :
    ∃ t dt Flines,
      self.invoked ext i =
        (if self.initialized_ then []
         else
          [Call.LinesInit
            ![i.motion.centreOfMass 0, i.motion.centreOfMass 1, i.motion.centreOfMass 2,
              ext.eulerAnglesXYZ i.motion.orientation 0,
              ext.eulerAnglesXYZ i.motion.orientation 1,
              ext.eulerAnglesXYZ i.motion.orientation 2]
            ![i.motion.v 0, i.motion.v 1, i.motion.v 2,
              i.motion.omega 0, i.motion.omega 1, i.motion.omega 2]]) ++
        [Call.LinesCalc
          ![i.motion.centreOfMass 0, i.motion.centreOfMass 1, i.motion.centreOfMass 2,
            ext.eulerAnglesXYZ i.motion.orientation 0,
            ext.eulerAnglesXYZ i.motion.orientation 1,
            ext.eulerAnglesXYZ i.motion.orientation 2]
          ![i.motion.v 0, i.motion.v 1, i.motion.v 2,
            i.motion.omega 0, i.motion.omega 1, i.motion.omega 2]
          t dt Flines] :=
  ⟨_, _, _, invoked_eq ext self i⟩

/-- C8: in the record of a whole lifetime (construction, any calls of
`restrain`, destruction) every invocation other than `LinesInit`, so every
`LinesCalc` and `LinesClose`, comes after exactly one `LinesInit`; there is at
most one `LinesInit`; and a call of `restrain` on an object whose
`initialized_` is set leaves it set. -/
theorem lifetime_init_first (ext : External S σ) (session : σ) (is : List (Invocation S)) :
    (∀ pre c post,
        (((moorDynR1.construct session : moorDynR1 S σ).restrainAll ext is).destroy
          ext).calls = pre ++ c :: post →
        c.isInit = false → pre.countP Call.isInit = 1) ∧
      (((moorDynR1.construct session : moorDynR1 S σ).restrainAll ext is).destroy
        ext).calls.countP Call.isInit ≤ 1 ∧
      ∀ (self : moorDynR1 S σ) (j : Invocation S),
        self.initialized_ = true → (self.step ext j).initialized_ = true := by
  have hshape : (((moorDynR1.construct session : moorDynR1 S σ).restrainAll ext is).destroy
        ext).calls = [] ∨
      ∃ X XD rest, (((moorDynR1.construct session : moorDynR1 S σ).restrainAll ext is).destroy
        ext).calls = Call.LinesInit X XD :: rest ∧ ∀ c ∈ rest, c.isInit = false := by
    have hinit := restrainAll_initialized_ ext (moorDynR1.construct session : moorDynR1 S σ) is
    rcases lifetime_calls_shape ext session is with ⟨h, his⟩ | ⟨X, XD, rest, h, hrest, hne⟩
    · left
      subst his
      simp [moorDynR1.destroy, moorDynR1.construct, moorDynR1.restrainAll]
    · right
      have hemp : is.isEmpty = false := by cases is <;> simp_all
      refine ⟨X, XD, rest ++ [Call.LinesClose], ?_, ?_⟩
      · simp [moorDynR1.destroy, hinit, hemp, h]
      · intro c hc
        rcases List.mem_append.1 hc with hc | hc
        · have := hrest c hc
          cases c <;> simp_all [Call.isCalc, Call.isInit]
        · simp at hc; subst hc; rfl
  have hcount : ∀ rest : List (Call S), (∀ c ∈ rest, c.isInit = false) →
      rest.countP Call.isInit = 0 := by
    intro rest h
    rw [List.countP_eq_zero]
    intro c hc
    simp [h c hc]
  refine ⟨?_, ?_, fun self j _ => step_initialized_ ext self j⟩
  · intro pre c post hsplit hc
    rcases hshape with h | ⟨X, XD, rest, h, hrest⟩
    · rw [h] at hsplit
      cases pre <;> simp at hsplit
    · rw [h] at hsplit
      cases pre with
      | nil =>
        simp only [List.nil_append, List.cons.injEq] at hsplit
        rw [← hsplit.1] at hc
        simp [Call.isInit] at hc
      | cons d pre =>
        simp only [List.cons_append, List.cons.injEq] at hsplit
        obtain ⟨hd, hrest'⟩ := hsplit
        subst hd
        have hpre : ∀ x ∈ pre, x.isInit = false := by
          intro x hx
          exact hrest x (by rw [hrest']; exact List.mem_append_left _ hx)
        simp [List.countP_cons, Call.isInit, hcount pre hpre]
  · rcases hshape with h | ⟨X, XD, rest, h, hrest⟩
    · simp [h]
    · simp [h, List.countP_cons, Call.isInit, hcount rest hrest]

/-- C10: two calls of `restrain` made on the same object, with the same
library and with body states that differ at most in `report()`, return the
same position, force and moment, invoke the same entry points with the same
arguments, and leave the same `initialized_`, session and file contents. -/
theorem restrain_report_independent (ext : External S σ) (self : moorDynR1 S σ)
    (motion : sixDoFRigidBodyMotion S) (b1 b2 : Bool) (p f m : vector S) :
    (self.restrain ext { motion with report := b1 } p f m).restraintPosition =
        (self.restrain ext { motion with report := b2 } p f m).restraintPosition ∧
      (self.restrain ext { motion with report := b1 } p f m).restraintForce =
        (self.restrain ext { motion with report := b2 } p f m).restraintForce ∧
      (self.restrain ext { motion with report := b1 } p f m).restraintMoment =
        (self.restrain ext { motion with report := b2 } p f m).restraintMoment ∧
      (self.restrain ext { motion with report := b1 } p f m).self.calls =
        (self.restrain ext { motion with report := b2 } p f m).self.calls ∧
      (self.restrain ext { motion with report := b1 } p f m).self.initialized_ =
        (self.restrain ext { motion with report := b2 } p f m).self.initialized_ ∧
      (self.restrain ext { motion with report := b1 } p f m).self.session =
        (self.restrain ext { motion with report := b2 } p f m).self.session ∧
      (self.restrain ext { motion with report := b1 } p f m).self.outputFile_ =
        (self.restrain ext { motion with report := b2 } p f m).self.outputFile_ ∧
      (self.restrain ext { motion with report := b1 } p f m).self.outputFile_2 =
        (self.restrain ext { motion with report := b2 } p f m).self.outputFile_2 := by
  refine ⟨?_, ?_, ?_, ?_, ?_, ?_, ?_, ?_⟩
  · simp [(restrain_loads ext self _ p f m).2.2]
  · simp [(restrain_loads ext self _ p f m).1, moorDynR1.loads, stateX, stateXD]
  · simp [(restrain_loads ext self _ p f m).2.1, moorDynR1.loads, stateX, stateXD]
  · simp [restrain_calls, moorDynR1.loads, stateX, stateXD]
  · simp [restrain_initialized_]
  · cases h : self.initialized_ <;> cases b1 <;> cases b2 <;> simp [moorDynR1.restrain, h]
  · simp [restrain_outputFile_]
  · simp [restrain_outputFile_2]

/-- C6: after the calls `is` of `restrain` on a freshly constructed object each
of the two files holds exactly one line per call, in the order of the calls
(the line of a call is what that call wrote), every line has 7 columns, the
time column of each file, no line left out, is the list of the calls' times,
and it is non-decreasing down the file when the times of the run are. -/
theorem output_logs_one_line_per_call [LE S] (ext : External S σ) (session : σ)
    (is : List (Invocation S)) :
    lines ((moorDynR1.construct session : moorDynR1 S σ).restrainAll ext is).outputFile_ =
        is.map (fun i => (motionLine i.motion.value i.motion.centreOfMass
          (ext.eulerAnglesXYZ i.motion.orientation)).dropLast) ∧
      lines ((moorDynR1.construct session : moorDynR1 S σ).restrainAll ext is).outputFile_2 =
        is.map (fun i =>
          (velocityLine i.motion.value i.motion.v i.motion.omega).dropLast) ∧
      (lines ((moorDynR1.construct session : moorDynR1 S σ).restrainAll ext
        is).outputFile_).length = is.length ∧
      (lines ((moorDynR1.construct session : moorDynR1 S σ).restrainAll ext
        is).outputFile_2).length = is.length ∧
      (∀ l ∈ lines ((moorDynR1.construct session : moorDynR1 S σ).restrainAll ext
        is).outputFile_, (columns l).length = 7) ∧
      (∀ l ∈ lines ((moorDynR1.construct session : moorDynR1 S σ).restrainAll ext
        is).outputFile_2, (columns l).length = 7) ∧
      timeColumn ((moorDynR1.construct session : moorDynR1 S σ).restrainAll ext
        is).outputFile_ = is.map (fun i => some i.motion.value) ∧
      timeColumn ((moorDynR1.construct session : moorDynR1 S σ).restrainAll ext
        is).outputFile_2 = is.map (fun i => some i.motion.value) ∧
      (List.Chain' (fun a b : S => a ≤ b) (is.map (fun i => i.motion.value)) →
        List.Chain' timeLe
          (timeColumn ((moorDynR1.construct session : moorDynR1 S σ).restrainAll ext
            is).outputFile_) ∧
        List.Chain' timeLe
          (timeColumn ((moorDynR1.construct session : moorDynR1 S σ).restrainAll ext
            is).outputFile_2)) := by
  have hmap : is.map (fun i => some i.motion.value) =
      (is.map (fun i => i.motion.value)).map some := by
    rw [List.map_map]; rfl
  refine ⟨lines_fresh_outputFile_ ext session is, lines_fresh_outputFile_2 ext session is,
    ?_, ?_, ?_, ?_, timeColumn_fresh_outputFile_ ext session is,
    timeColumn_fresh_outputFile_2 ext session is, ?_⟩
  · rw [lines_fresh_outputFile_, List.length_map]
  · rw [lines_fresh_outputFile_2, List.length_map]
  · intro l hl
    rw [lines_fresh_outputFile_] at hl
    obtain ⟨i, -, rfl⟩ := List.mem_map.1 hl
    rw [motionLine_columns]; rfl
  · intro l hl
    rw [lines_fresh_outputFile_2] at hl
    obtain ⟨i, -, rfl⟩ := List.mem_map.1 hl
    rw [velocityLine_columns]; rfl
  · intro h
    rw [timeColumn_fresh_outputFile_, timeColumn_fresh_outputFile_2, hmap]
    exact ⟨chain_timeLe_map_some _ h, chain_timeLe_map_some _ h⟩

/-- C6, on a run of three calls at the times 1, 1.5 and 1.5 of an upright body:
the time column of each file is `1, 1.5, 1.5`, every line counted, and is
non-decreasing. -/
theorem output_logs_one_line_per_call_witness :
    timeColumn ((moorDynR1.construct 0 : moorDynR1 ℚ ℕ).restrainAll
        (demoExternal ℚ ![0, 0, 0] ![1, 2, 3, 4, 5, 6])
        [demoInvocation ℚ 1, demoInvocation ℚ 1.5, demoInvocation ℚ 1.5]).outputFile_ =
        [some 1, some 1.5, some 1.5] ∧
      timeColumn ((moorDynR1.construct 0 : moorDynR1 ℚ ℕ).restrainAll
        (demoExternal ℚ ![0, 0, 0] ![1, 2, 3, 4, 5, 6])
        [demoInvocation ℚ 1, demoInvocation ℚ 1.5, demoInvocation ℚ 1.5]).outputFile_2 =
        [some 1, some 1.5, some 1.5] ∧
      List.Chain' timeLe
        (timeColumn ((moorDynR1.construct 0 : moorDynR1 ℚ ℕ).restrainAll
          (demoExternal ℚ ![0, 0, 0] ![1, 2, 3, 4, 5, 6])
          [demoInvocation ℚ 1, demoInvocation ℚ 1.5, demoInvocation ℚ 1.5]).outputFile_) ∧
      List.Chain' timeLe
        (timeColumn ((moorDynR1.construct 0 : moorDynR1 ℚ ℕ).restrainAll
          (demoExternal ℚ ![0, 0, 0] ![1, 2, 3, 4, 5, 6])
          [demoInvocation ℚ 1, demoInvocation ℚ 1.5, demoInvocation ℚ 1.5]).outputFile_2) :=
  ⟨(output_logs_one_line_per_call (demoExternal ℚ ![0, 0, 0] ![1, 2, 3, 4, 5, 6]) 0
      [demoInvocation ℚ 1, demoInvocation ℚ 1.5, demoInvocation ℚ 1.5]).2.2.2.2.2.2.1,
    (output_logs_one_line_per_call (demoExternal ℚ ![0, 0, 0] ![1, 2, 3, 4, 5, 6]) 0
      [demoInvocation ℚ 1, demoInvocation ℚ 1.5, demoInvocation ℚ 1.5]).2.2.2.2.2.2.2.1,
    (output_logs_one_line_per_call (demoExternal ℚ ![0, 0, 0] ![1, 2, 3, 4, 5, 6]) 0
      [demoInvocation ℚ 1, demoInvocation ℚ 1.5, demoInvocation ℚ 1.5]).2.2.2.2.2.2.2.2
      (by simp [demoInvocation, demoMotion]; norm_num)⟩

/-- C7: a call of `restrain` at time `t` appends one line to each file. The line
of the motion file holds, in this order, `t`, the three components of the
centre of mass and the three XYZ Euler angles converted from radians to
degrees, each multiplied by the factor the code writes for `180/π`, the
quotient `180/3.1415926535`; over the real numbers a product by this factor is
within `2e-9` per radian of the product by `180/π`. The line of the velocity
file holds `t`, the three components of `v` and the three of `omega`, as they
are. -/
theorem restrain_log_columns (ext : External S σ) (self : moorDynR1 S σ)
    (i : Invocation S) :
    (∃ row row2 : List (Out S),
      (self.step ext i).outputFile_ = self.outputFile_ ++ (row ++ [Out.endl]) ∧
      (∀ o ∈ row, o.isEndl = false) ∧
      columns row =
        [[.scalar i.motion.value],
         [.scalar (i.motion.centreOfMass 0)], [.scalar (i.motion.centreOfMass 1)],
         [.scalar (i.motion.centreOfMass 2)],
         [.scalar (180.0 / 3.1415926535 * ext.eulerAnglesXYZ i.motion.orientation 0)],
         [.scalar (180.0 / 3.1415926535 * ext.eulerAnglesXYZ i.motion.orientation 1)],
         [.scalar (180.0 / 3.1415926535 * ext.eulerAnglesXYZ i.motion.orientation 2)]] ∧
      (self.step ext i).outputFile_2 = self.outputFile_2 ++ (row2 ++ [Out.endl]) ∧
      (∀ o ∈ row2, o.isEndl = false) ∧
      columns row2 =
        [[.scalar i.motion.value],
         [.scalar (i.motion.v 0)], [.scalar (i.motion.v 1)], [.scalar (i.motion.v 2)],
         [.scalar (i.motion.omega 0)], [.scalar (i.motion.omega 1)],
         [.scalar (i.motion.omega 2)]]) ∧
    ∀ angle : ℝ,
      |180.0 / 3.1415926535 * angle - 180 / Real.pi * angle| ≤ 0.000000002 * |angle| := by
  constructor
  · refine ⟨(motionLine i.motion.value i.motion.centreOfMass
        (ext.eulerAnglesXYZ i.motion.orientation)).dropLast,
      (velocityLine i.motion.value i.motion.v i.motion.omega).dropLast,
      ?_, ?_, ?_, ?_, ?_, ?_⟩
    · simp [moorDynR1.step, restrain_outputFile_, motionLine]
    · exact motionLine_no_endl _ _ _
    · exact motionLine_columns _ _ _
    · simp [moorDynR1.step, restrain_outputFile_2, velocityLine]
    · exact velocityLine_no_endl _ _ _
    · exact velocityLine_columns _ _ _
  · intro angle
    obtain ⟨hlo, hhi⟩ := degrees_factor_close
    rw [← sub_mul, abs_mul, abs_of_pos hlo]
    exact mul_le_mul_of_nonneg_right hhi.le (abs_nonneg angle)

end claims

section gyroscopicClaims

variable {S : Type} [Ring S]

/-- C9: when the configured `angularSpeed` is 0 or the configured `rotationAxis`
is the zero vector, the rotor's angular velocity is zero and, for every body
state and every inertia tensor, `restrain` returns the moment `(0,0,0)`, the
force `(0,0,0)` and the body's centre of rotation as the application point. -/
theorem gyroscopic_zero_cases (rotationAxis : vector S) (angularSpeed : S)
    (inertiaMoment : tensor S) (motion : sixDoFRigidBodyMotion S) (p f m : vector S)
    (hzero : angularSpeed = 0 ∨ rotationAxis = ![0, 0, 0]) :
    (gyroscopicMoment.read rotationAxis angularSpeed inertiaMoment).omega_ = ![0, 0, 0] ∧
      ((gyroscopicMoment.read rotationAxis angularSpeed inertiaMoment).restrain motion
        p f m).restraintMoment = ![0, 0, 0] ∧
      ((gyroscopicMoment.read rotationAxis angularSpeed inertiaMoment).restrain motion
        p f m).restraintForce = ![0, 0, 0] ∧
      ((gyroscopicMoment.read rotationAxis angularSpeed inertiaMoment).restrain motion
        p f m).restraintPosition = motion.centreOfRotation := by
  have homega : (gyroscopicMoment.read rotationAxis angularSpeed inertiaMoment).omega_ =
      fun _ => 0 := by
    funext k
    rcases hzero with h | h
    · simp [gyroscopicMoment.read, h]
    · subst h
      fin_cases k <;> simp [gyroscopicMoment.read]
  refine ⟨?_, ?_, ?_, rfl⟩
  · rw [homega]; funext k; fin_cases k <;> rfl
  · funext k
    simp only [gyroscopicMoment.restrain, homega]
    fin_cases k <;> simp [tensor.dot, cross]
  · funext k; fin_cases k <;> rfl

/-- C9, on a rotor of axis `(1,0,0)` and speed 0 carried by a body turning at
`(7,8,9)` rad/s. -/
theorem gyroscopic_zero_cases_witness :
    ((gyroscopicMoment.read (![1, 0, 0] : vector ℚ) 0
        (fun i j => if i = j then 2 else 0)).restrain (demoMotion ℚ 2 false)
        ![7, 7, 7] ![8, 8, 8] ![9, 9, 9]).restraintMoment = ![0, 0, 0] :=
  (gyroscopic_zero_cases (![1, 0, 0] : vector ℚ) 0 (fun i j => if i = j then 2 else 0)
    (demoMotion ℚ 2 false) ![7, 7, 7] ![8, 8, 8] ![9, 9, 9] (Or.inl rfl)).2.1

end gyroscopicClaims

end Foam
